import Mathlib

/-!
Verification of the QuarXNet framing protocol codec (src/src/protocol.rs).

The Rust module is embedded shallowly: bytes are natural numbers (every
value a `u8` position can hold is below 256, which appears as an explicit
hypothesis or is guaranteed by the encoders per construction), fixed-width
integers `u16`/`u32`/`u64` are naturals bounded by the matching power of
two, byte buffers are `List Nat`, and fallible operations return
`Except NetError`.  The `Transport` trait becomes a structure of two
state-passing functions over an abstract state type, and the in-memory
loopback test double is a FIFO byte queue.
-/

namespace QuarXNet

/-- Modelled from the spec: `ProtocolVersion` from `quarxtor_core::net_core`
(the type is imported by the module, not defined in it) -- major and minor
are `u16` fields. -/
structure ProtocolVersion where
  major : Nat
  minor : Nat
  deriving DecidableEq, Repr

/-- Modelled from the spec: `FrameKind` from `quarxtor_core::net_core`, the
closed tagged variant over the eight message kinds. -/
inductive FrameKind where
  | Hello
  | Caps
  | GetBlocks
  | PushBlocks
  | GetObject
  | PushObject
  | Ping
  | Pong
  deriving DecidableEq, Repr

/-- Modelled from the spec: `FrameHeader` from `quarxtor_core::net_core` --
kind, `u8` flags, `u32` payload length. -/
structure FrameHeader where
  kind : FrameKind
  flags : Nat
  length : Nat
  deriving DecidableEq, Repr

/-- Modelled from the spec: `Frame` from `quarxtor_core::net_core` -- a
header together with the payload bytes. -/
structure Frame where
  header : FrameHeader
  payload : List Nat
  deriving DecidableEq, Repr

/-- Modelled from the spec: `HelloPayload` from `quarxtor_core::net_core`
-- `u64` node id and a protocol version. -/
structure HelloPayload where
  node : Nat
  version : ProtocolVersion
  deriving DecidableEq, Repr

/-- Modelled from the spec: `GetBlocksPayload` from
`quarxtor_core::net_core` -- an ordered sequence of `u64` block ids. -/
structure GetBlocksPayload where
  ids : List Nat
  deriving DecidableEq, Repr

/-- Modelled from the spec: `PushBlocksPayload` from
`quarxtor_core::net_core` -- opaque raw bytes. -/
structure PushBlocksPayload where
  raw : List Nat
  deriving DecidableEq, Repr

/-- Modelled from the spec: `GetObjectPayload` from
`quarxtor_core::net_core` -- a single `u64` object id. -/
structure GetObjectPayload where
  id : Nat
  deriving DecidableEq, Repr

/-- Modelled from the spec: `PushObjectPayload` from
`quarxtor_core::net_core` -- opaque raw bytes. -/
structure PushObjectPayload where
  raw : List Nat
  deriving DecidableEq, Repr

/-- Modelled from the spec: `NetError` from `quarxtor_core::net_core`, the
closed set of failure kinds -- `InvalidFrame`, `DecodeError`, plus
transport-level errors produced by the Transport Capability (collapsed
here into one constructor, since the codec only propagates them). -/
inductive NetError where
  | InvalidFrame
  | DecodeError
  | TransportError
  deriving DecidableEq, Repr

/-- Embeds `NetResult<T>` = `Result<T, NetError>`. -/
abbrev NetResult (α : Type) : Type := Except NetError α

/-- Embeds the `Transport` trait: two state-passing operations over an
abstract connection state `σ` (in Rust both take `&mut self`). -/
structure Transport (σ : Type) where
  send : σ → List Nat → NetResult (Unit × σ)
  recv_exact : σ → Nat → NetResult (List Nat × σ)

/-- Embeds `encode_u16`: `x.to_be_bytes()`, the two big-endian bytes of a
`u16` (each byte extracted with an explicit `% 256`). -/
def encode_u16 (x : Nat) : List Nat :=
  [x / 2 ^ 8 % 2 ^ 8, x % 2 ^ 8]

/-- Embeds `encode_u32`: the four big-endian bytes of a `u32`. -/
def encode_u32 (x : Nat) : List Nat :=
  [x / 2 ^ 24 % 2 ^ 8, x / 2 ^ 16 % 2 ^ 8, x / 2 ^ 8 % 2 ^ 8, x % 2 ^ 8]

/-- Embeds `encode_u64`: the eight big-endian bytes of a `u64`. -/
def encode_u64 (x : Nat) : List Nat :=
  [x / 2 ^ 56 % 2 ^ 8, x / 2 ^ 48 % 2 ^ 8, x / 2 ^ 40 % 2 ^ 8,
   x / 2 ^ 32 % 2 ^ 8, x / 2 ^ 24 % 2 ^ 8, x / 2 ^ 16 % 2 ^ 8,
   x / 2 ^ 8 % 2 ^ 8, x % 2 ^ 8]

/-- Embeds `decode_u16`: `u16::from_be_bytes([b[0], b[1]])`.  The Rust
function indexes without a bounds check (every caller has already checked
the length); a too-short buffer, which would panic in Rust and is
unreachable from the callers, yields 0 here. -/
def decode_u16 : List Nat → Nat
  | b0 :: b1 :: _ => b0 * 2 ^ 8 + b1
  | _ => 0

/-- Embeds `decode_u32`: `u32::from_be_bytes` of the first four bytes. -/
def decode_u32 : List Nat → Nat
  | b0 :: b1 :: b2 :: b3 :: _ =>
      b0 * 2 ^ 24 + b1 * 2 ^ 16 + b2 * 2 ^ 8 + b3
  | _ => 0

/-- Embeds `decode_u64`: `u64::from_be_bytes` of the first eight bytes. -/
def decode_u64 : List Nat → Nat
  | b0 :: b1 :: b2 :: b3 :: b4 :: b5 :: b6 :: b7 :: _ =>
      b0 * 2 ^ 56 + b1 * 2 ^ 48 + b2 * 2 ^ 40 + b3 * 2 ^ 32 +
      b4 * 2 ^ 24 + b5 * 2 ^ 16 + b6 * 2 ^ 8 + b7
  | _ => 0

/-- Embeds the `match h.kind` arm of `encode_frame_header`: the
kind-to-byte mapping. -/
def kind_byte : FrameKind → Nat
  | FrameKind.Hello => 1
  | FrameKind.Caps => 2
  | FrameKind.GetBlocks => 3
  | FrameKind.PushBlocks => 4
  | FrameKind.GetObject => 5
  | FrameKind.PushObject => 6
  | FrameKind.Ping => 7
  | FrameKind.Pong => 8

/-- Embeds the `match buf[0]` arm of `decode_frame_header`: the
byte-to-kind mapping, `none` for every byte outside 1..8. -/
def decode_kind : Nat → Option FrameKind
  | 1 => some FrameKind.Hello
  | 2 => some FrameKind.Caps
  | 3 => some FrameKind.GetBlocks
  | 4 => some FrameKind.PushBlocks
  | 5 => some FrameKind.GetObject
  | 6 => some FrameKind.PushObject
  | 7 => some FrameKind.Ping
  | 8 => some FrameKind.Pong
  | _ => none

/-- Embeds `encode_frame_header`: kind byte, flags byte, 4-byte big-endian
length. -/
def encode_frame_header (h : FrameHeader) : List Nat :=
  kind_byte h.kind :: h.flags :: encode_u32 h.length

/-- Embeds `decode_frame_header`: error on fewer than 6 bytes or an
unrecognized kind byte, otherwise flags verbatim from byte 1 and length
from the big-endian bytes 2..5. -/
def decode_frame_header (buf : List Nat) : NetResult FrameHeader :=
  if buf.length < 6 then
    Except.error NetError.InvalidFrame
  else
    match decode_kind (buf.getD 0 0) with
    | none => Except.error NetError.InvalidFrame
    | some kind =>
        Except.ok { kind := kind, flags := buf.getD 1 0,
                    length := decode_u32 (buf.drop 2) }

/-- Embeds `encode_frame`: header bytes followed by the payload bytes. -/
def encode_frame (frame : Frame) : List Nat :=
  encode_frame_header frame.header ++ frame.payload

/-- Embeds `decode_frame`: rejects a payload whose byte count differs
from `header.length`, otherwise assembles the frame. -/
def decode_frame (header : FrameHeader) (payload : List Nat) :
    NetResult Frame :=
  if payload.length ≠ header.length then
    Except.error NetError.InvalidFrame
  else
    Except.ok { header := header, payload := payload }

/-- Embeds `encode_hello`: 8-byte node, 2-byte major, 2-byte minor. -/
def encode_hello (p : HelloPayload) : List Nat :=
  encode_u64 p.node ++ encode_u16 p.version.major ++ encode_u16 p.version.minor

/-- Embeds `decode_hello`: error on fewer than 12 bytes, otherwise node
from bytes 0..7, major from bytes 8..9, minor from bytes 10..11. -/
def decode_hello (b : List Nat) : NetResult HelloPayload :=
  if b.length < 12 then
    Except.error NetError.DecodeError
  else
    Except.ok { node := decode_u64 b,
                version := { major := decode_u16 (b.drop 8),
                             minor := decode_u16 (b.drop 10) } }

/-- Embeds the loop body of `encode_get_blocks`: each id in order as eight
big-endian bytes. -/
def encode_ids : List Nat → List Nat
  | [] => []
  | id :: rest => encode_u64 id ++ encode_ids rest

/-- Embeds `encode_get_blocks`. -/
def encode_get_blocks (p : GetBlocksPayload) : List Nat :=
  encode_ids p.ids

/-- Embeds the `b.chunks(8)` loop of `decode_get_blocks`: one `u64` per
8-byte chunk.  The callers only reach this with a length that is a
multiple of 8, so every chunk has exactly 8 bytes; a final short chunk
(unreachable from the guarded caller, where Rust would panic inside
`decode_u64`) yields no id here. -/
def decode_ids : List Nat → List Nat
  | b0 :: b1 :: b2 :: b3 :: b4 :: b5 :: b6 :: b7 :: rest =>
      decode_u64 [b0, b1, b2, b3, b4, b5, b6, b7] :: decode_ids rest
  | _ => []

/-- Embeds `decode_get_blocks`: error when the length is not a multiple
of 8, otherwise one id per chunk. -/
def decode_get_blocks (b : List Nat) : NetResult GetBlocksPayload :=
  if b.length % 8 ≠ 0 then
    Except.error NetError.DecodeError
  else
    Except.ok { ids := decode_ids b }

/-- Embeds `encode_push_blocks`: the raw bytes unchanged. -/
def encode_push_blocks (p : PushBlocksPayload) : List Nat :=
  p.raw

/-- Embeds `decode_push_blocks`: never fails. -/
def decode_push_blocks (b : List Nat) : NetResult PushBlocksPayload :=
  Except.ok { raw := b }

/-- Embeds `encode_get_object`: the id as eight big-endian bytes. -/
def encode_get_object (p : GetObjectPayload) : List Nat :=
  encode_u64 p.id

/-- Embeds `decode_get_object`: error unless exactly 8 bytes. -/
def decode_get_object (b : List Nat) : NetResult GetObjectPayload :=
  if b.length ≠ 8 then
    Except.error NetError.DecodeError
  else
    Except.ok { id := decode_u64 b }

/-- Embeds `encode_push_object`: the raw bytes unchanged. -/
def encode_push_object (p : PushObjectPayload) : List Nat :=
  p.raw

/-- Embeds `decode_push_object`: never fails. -/
def decode_push_object (b : List Nat) : NetResult PushObjectPayload :=
  Except.ok { raw := b }

/-- Embeds `send_frame`: encode the frame and issue one transport send. -/
def send_frame {σ : Type} (T : Transport σ) (t : σ) (frame : Frame) :
    NetResult (Unit × σ) :=
  T.send t (encode_frame frame)

/-- Embeds `recv_frame`: read exactly 6 header bytes, decode the header,
read exactly `header.length` payload bytes, assemble via `decode_frame`.
Each `?` operator of the Rust body is desugared into a match that
propagates the error unchanged. -/
def recv_frame {σ : Type} (T : Transport σ) (t : σ) :
    NetResult (Frame × σ) :=
  match T.recv_exact t 6 with
  | Except.error e => Except.error e
  | Except.ok (hdr_bytes, t1) =>
      match decode_frame_header hdr_bytes with
      | Except.error e => Except.error e
      | Except.ok header =>
          match T.recv_exact t1 header.length with
          | Except.error e => Except.error e
          | Except.ok (payload, t2) =>
              match decode_frame header payload with
              | Except.error e => Except.error e
              | Except.ok frame => Except.ok (frame, t2)

/-- Modelled from the spec: an in-memory loopback Transport test double
(the spec mandates that test doubles be in-memory buffers sharing the
codec logic).  The state is the FIFO byte queue: `send` appends, and
`recv_exact` returns exactly `len` bytes from the front or fails. -/
def loopback : Transport (List Nat) where
  send := fun t data => Except.ok ((), t ++ data)
  recv_exact := fun t len =>
    if len ≤ t.length then Except.ok (t.take len, t.drop len)
    else Except.error NetError.TransportError

/-- The loopback double honours the Transport contract: a successful
`recv_exact len` returns exactly `len` bytes. -/
theorem loopback_recv_exact_length (t : List Nat) (len : Nat)
    (bs : List Nat) (t2 : List Nat)
    (h : loopback.recv_exact t len = Except.ok (bs, t2)) :
    bs.length = len := by
  by_cases hle : len ≤ t.length
  · simp [loopback, hle] at h
    obtain ⟨h1, _⟩ := h
    subst h1
    exact List.length_take_of_le hle
  · simp [loopback, hle] at h

/-! Primitive codec round-trips. -/

theorem decode_u16_encode_u16 (x : Nat) (rest : List Nat) (hx : x < 2 ^ 16) :
    decode_u16 (encode_u16 x ++ rest) = x := by
  simp [encode_u16, decode_u16]
  omega

theorem decode_u32_encode_u32 (x : Nat) (rest : List Nat) (hx : x < 2 ^ 32) :
    decode_u32 (encode_u32 x ++ rest) = x := by
  simp [encode_u32, decode_u32]
  omega

theorem decode_u64_encode_u64 (x : Nat) (rest : List Nat) (hx : x < 2 ^ 64) :
    decode_u64 (encode_u64 x ++ rest) = x := by
  simp [encode_u64, decode_u64]
  omega

theorem encode_u32_length (x : Nat) : (encode_u32 x).length = 4 := rfl

theorem encode_u64_length (x : Nat) : (encode_u64 x).length = 8 := rfl

/-! Frame header codec lemmas. -/

theorem encode_frame_header_length (h : FrameHeader) :
    (encode_frame_header h).length = 6 := rfl

theorem decode_kind_kind_byte (k : FrameKind) :
    decode_kind (kind_byte k) = some k := by
  cases k <;> rfl

theorem decode_kind_eq_some (b : Nat) (k : FrameKind)
    (h : decode_kind b = some k) : b = kind_byte k := by
  unfold decode_kind at h
  split at h
  all_goals try exact Option.noConfusion h
  all_goals injection h with h
  all_goals subst h
  all_goals rfl

theorem decode_kind_eq_none (b : Nat) :
    decode_kind b = none ↔ b = 0 ∨ 9 ≤ b := by
  match b with
  | 0 | 1 | 2 | 3 | 4 | 5 | 6 | 7 | 8 => simp [decode_kind]
  | n + 9 =>
      have hn : decode_kind (n + 9) = none := rfl
      rw [hn]
      simp

theorem decode_encode_frame_header (h : FrameHeader)
    (hlen : h.length < 2 ^ 32) :
    decode_frame_header (encode_frame_header h) = Except.ok h := by
  obtain ⟨k, fl, len⟩ := h
  have hlen2 : len < 2 ^ 32 := hlen
  simp [decode_frame_header, encode_frame_header, encode_u32,
    decode_kind_kind_byte, decode_u32]
  omega

/-! Payload codec lemmas. -/

theorem decode_hello_encode_hello (p : HelloPayload)
    (hn : p.node < 2 ^ 64) (hmaj : p.version.major < 2 ^ 16)
    (hmi : p.version.minor < 2 ^ 16) :
    decode_hello (encode_hello p) = Except.ok p := by
  obtain ⟨node, maj, mi⟩ := p
  have hn2 : node < 2 ^ 64 := hn
  have hmaj2 : maj < 2 ^ 16 := hmaj
  have hmi2 : mi < 2 ^ 16 := hmi
  simp [decode_hello, encode_hello, encode_u64, encode_u16,
    decode_u64, decode_u16]
  omega

theorem encode_ids_length (ids : List Nat) :
    (encode_ids ids).length = 8 * ids.length := by
  induction ids with
  | nil => rfl
  | cons id rest ih =>
      simp [encode_ids, encode_u64, ih]
      omega

theorem decode_ids_encode_ids (ids : List Nat)
    (h : ∀ id ∈ ids, id < 2 ^ 64) :
    decode_ids (encode_ids ids) = ids := by
  induction ids with
  | nil => rfl
  | cons id rest ih =>
      have hid : id < 2 ^ 64 := h id (by simp)
      have hrest : ∀ i ∈ rest, i < 2 ^ 64 := fun i hi => h i (by simp [hi])
      simp [encode_ids, encode_u64, decode_ids, decode_u64, ih hrest]
      omega

theorem decode_get_blocks_encode_get_blocks (p : GetBlocksPayload)
    (h : ∀ id ∈ p.ids, id < 2 ^ 64) :
    decode_get_blocks (encode_get_blocks p) = Except.ok p := by
  obtain ⟨ids⟩ := p
  have hlen : (encode_ids ids).length % 8 = 0 := by
    simp [encode_ids_length]
  simp [decode_get_blocks, encode_get_blocks, hlen,
    decode_ids_encode_ids ids h]

theorem decode_get_object_encode_get_object (p : GetObjectPayload)
    (h : p.id < 2 ^ 64) :
    decode_get_object (encode_get_object p) = Except.ok p := by
  obtain ⟨id⟩ := p
  have h2 : id < 2 ^ 64 := h
  simp [decode_get_object, encode_get_object, encode_u64, decode_u64]
  omega

/-- C2: for every FrameHeader -- any of the 8 kinds, any u8 flags, any u32
length including 0 and the maximal value -- decoding the encoded header
returns the header back, and the encoding is exactly 6 bytes. -/
theorem frame_header_roundtrip (h : FrameHeader)
    (hflags : h.flags < 2 ^ 8) (hlen : h.length < 2 ^ 32) :
    decode_frame_header (encode_frame_header h) = Except.ok h ∧
    (encode_frame_header h).length = 6 :=
  ⟨decode_encode_frame_header h hlen, encode_frame_header_length h⟩

theorem frame_header_roundtrip_witness :
    decode_frame_header (encode_frame_header
        { kind := FrameKind.Pong, flags := 255, length := 4294967295 }) =
      Except.ok
        { kind := FrameKind.Pong, flags := 255, length := 4294967295 } ∧
    (encode_frame_header
        { kind := FrameKind.Pong, flags := 255, length := 4294967295 }).length
      = 6 :=
  frame_header_roundtrip
    { kind := FrameKind.Pong, flags := 255, length := 4294967295 }
    (by decide) (by decide)

/-- C3: every payload codec pair round-trips -- decoding the encoding of
any in-range payload value returns exactly that value, with GetBlocks id
order preserved. -/
theorem payload_codecs_roundtrip :
    (∀ p : HelloPayload, p.node < 2 ^ 64 → p.version.major < 2 ^ 16 →
        p.version.minor < 2 ^ 16 →
        decode_hello (encode_hello p) = Except.ok p) ∧
    (∀ p : GetBlocksPayload, (∀ id ∈ p.ids, id < 2 ^ 64) →
        decode_get_blocks (encode_get_blocks p) = Except.ok p) ∧
    (∀ p : PushBlocksPayload,
        decode_push_blocks (encode_push_blocks p) = Except.ok p) ∧
    (∀ p : GetObjectPayload, p.id < 2 ^ 64 →
        decode_get_object (encode_get_object p) = Except.ok p) ∧
    (∀ p : PushObjectPayload,
        decode_push_object (encode_push_object p) = Except.ok p) :=
  ⟨fun p hn hmaj hmi => decode_hello_encode_hello p hn hmaj hmi,
   fun p h => decode_get_blocks_encode_get_blocks p h,
   fun _ => rfl,
   fun p h => decode_get_object_encode_get_object p h,
   fun _ => rfl⟩

theorem payload_codecs_roundtrip_witness :
    decode_hello (encode_hello
        { node := 42, version := { major := 1, minor := 2 } }) =
      Except.ok { node := 42, version := { major := 1, minor := 2 } } ∧
    decode_get_blocks (encode_get_blocks { ids := [3, 1, 2] }) =
      Except.ok { ids := [3, 1, 2] } ∧
    decode_get_object (encode_get_object { id := 7 }) =
      Except.ok { id := 7 } :=
  ⟨payload_codecs_roundtrip.1
      { node := 42, version := { major := 1, minor := 2 } }
      (by decide) (by decide) (by decide),
   payload_codecs_roundtrip.2.1 { ids := [3, 1, 2] } (by decide),
   payload_codecs_roundtrip.2.2.2.1 { id := 7 } (by decide)⟩

/-- C4: the first byte emitted by encode_frame_header is exactly the code
of the kind under the documented 1..8 mapping, followed by the flags byte
and the 4-byte big-endian length; decode_frame_header maps each code back
to the corresponding kind, and the kind-to-byte mapping is a bijection
between the 8 kinds and the codes 1..8. -/
theorem kind_code_bijection :
    (kind_byte FrameKind.Hello = 1 ∧ kind_byte FrameKind.Caps = 2 ∧
     kind_byte FrameKind.GetBlocks = 3 ∧ kind_byte FrameKind.PushBlocks = 4 ∧
     kind_byte FrameKind.GetObject = 5 ∧ kind_byte FrameKind.PushObject = 6 ∧
     kind_byte FrameKind.Ping = 7 ∧ kind_byte FrameKind.Pong = 8) ∧
    (∀ h : FrameHeader,
        encode_frame_header h =
          kind_byte h.kind :: h.flags :: encode_u32 h.length) ∧
    (∀ k : FrameKind, decode_kind (kind_byte k) = some k) ∧
    (∀ k : FrameKind, ∀ fl b2 b3 b4 b5 : Nat,
        decode_frame_header [kind_byte k, fl, b2, b3, b4, b5] =
          Except.ok { kind := k, flags := fl,
                      length := decode_u32 [b2, b3, b4, b5] }) ∧
    (∀ b : Nat, ∀ k : FrameKind, decode_kind b = some k → b = kind_byte k) :=
  ⟨⟨rfl, rfl, rfl, rfl, rfl, rfl, rfl, rfl⟩,
   fun _ => rfl,
   decode_kind_kind_byte,
   fun k fl b2 b3 b4 b5 => by
     simp [decode_frame_header, decode_kind_kind_byte],
   decode_kind_eq_some⟩

theorem kind_code_bijection_witness : 5 = kind_byte FrameKind.GetObject :=
  kind_code_bijection.2.2.2.2 5 FrameKind.GetObject (by decide)

/-- C5: decode_frame_header fails, always with InvalidFrame, exactly when
the buffer has fewer than 6 bytes or its first byte is outside the
reserved codes 1..8; on success the length field is the verbatim
big-endian u32 read from bytes 2..5. -/
theorem decode_frame_header_error_spec (buf : List Nat) :
    (decode_frame_header buf = Except.error NetError.InvalidFrame ↔
       buf.length < 6 ∨ buf.getD 0 0 = 0 ∨ 9 ≤ buf.getD 0 0) ∧
    (∀ e, decode_frame_header buf = Except.error e →
       e = NetError.InvalidFrame) ∧
    (∀ h, decode_frame_header buf = Except.ok h →
       h.length = decode_u32 (buf.drop 2)) := by
  refine ⟨?_, ?_, ?_⟩
  · by_cases h6 : buf.length < 6
    · simp [decode_frame_header, h6]
    · rcases hk : decode_kind (buf.getD 0 0) with _ | k
      · have hr := (decode_kind_eq_none (buf.getD 0 0)).1 hk
        refine iff_of_true ?_ (Or.inr hr)
        unfold decode_frame_header
        rw [if_neg h6, hk]
      · have hb := decode_kind_eq_some _ _ hk
        have h18 : 1 ≤ kind_byte k ∧ kind_byte k ≤ 8 := by
          cases k <;> simp [kind_byte]
        refine iff_of_false ?_ (by omega)
        unfold decode_frame_header
        rw [if_neg h6, hk]
        simp
  · intro e he
    unfold decode_frame_header at he
    split at he
    · injection he with he
      exact he.symm
    · split at he
      · injection he with he
        exact he.symm
      · exact Except.noConfusion he
  · intro h hok
    unfold decode_frame_header at hok
    split at hok
    · exact Except.noConfusion hok
    · split at hok
      · exact Except.noConfusion hok
      · injection hok with hok
        rw [← hok]

theorem decode_frame_header_error_spec_witness :
    decode_frame_header [0, 0, 0, 0, 0, 0] =
      Except.error NetError.InvalidFrame ∧
    decode_frame_header [9, 0, 0, 0, 0, 0] =
      Except.error NetError.InvalidFrame ∧
    decode_frame_header [1, 0, 0, 0, 0] =
      Except.error NetError.InvalidFrame :=
  ⟨(decode_frame_header_error_spec [0, 0, 0, 0, 0, 0]).1.mpr (by decide),
   (decode_frame_header_error_spec [9, 0, 0, 0, 0, 0]).1.mpr (by decide),
   (decode_frame_header_error_spec [1, 0, 0, 0, 0]).1.mpr (by decide)⟩

/-- C6: each payload decoder fails, always with DecodeError, exactly under
its contract condition -- Hello on fewer than 12 bytes, GetBlocks on a
length that is not a multiple of 8, GetObject on a length other than 8 --
and the PushBlocks and PushObject decoders never fail. -/
theorem payload_decoder_errors :
    (∀ b : List Nat,
       (decode_hello b = Except.error NetError.DecodeError ↔
          b.length < 12) ∧
       (∀ e, decode_hello b = Except.error e → e = NetError.DecodeError)) ∧
    (∀ b : List Nat,
       (decode_get_blocks b = Except.error NetError.DecodeError ↔
          b.length % 8 ≠ 0) ∧
       (∀ e, decode_get_blocks b = Except.error e →
          e = NetError.DecodeError)) ∧
    (∀ b : List Nat,
       (decode_get_object b = Except.error NetError.DecodeError ↔
          b.length ≠ 8) ∧
       (∀ e, decode_get_object b = Except.error e →
          e = NetError.DecodeError)) ∧
    (∀ b : List Nat, decode_push_blocks b = Except.ok { raw := b }) ∧
    (∀ b : List Nat, decode_push_object b = Except.ok { raw := b }) := by
  refine ⟨fun b => ⟨?_, ?_⟩, fun b => ⟨?_, ?_⟩, fun b => ⟨?_, ?_⟩,
    fun _ => rfl, fun _ => rfl⟩
  · by_cases h : b.length < 12 <;> simp [decode_hello, h]
  · intro e he
    unfold decode_hello at he
    split at he
    · injection he with he
      exact he.symm
    · exact Except.noConfusion he
  · by_cases h : b.length % 8 = 0 <;> simp [decode_get_blocks, h]
  · intro e he
    unfold decode_get_blocks at he
    split at he
    · injection he with he
      exact he.symm
    · exact Except.noConfusion he
  · by_cases h : b.length = 8 <;> simp [decode_get_object, h]
  · intro e he
    unfold decode_get_object at he
    split at he
    · injection he with he
      exact he.symm
    · exact Except.noConfusion he

theorem payload_decoder_errors_witness :
    decode_hello (List.replicate 11 0) =
      Except.error NetError.DecodeError ∧
    decode_get_blocks (List.replicate 7 0) =
      Except.error NetError.DecodeError ∧
    decode_get_object (List.replicate 9 0) =
      Except.error NetError.DecodeError :=
  ⟨(payload_decoder_errors.1 (List.replicate 11 0)).1.mpr (by decide),
   (payload_decoder_errors.2.1 (List.replicate 7 0)).1.mpr (by decide),
   (payload_decoder_errors.2.2.1 (List.replicate 9 0)).1.mpr (by decide)⟩

/-! Frame orchestration lemmas. -/

theorem decode_frame_ok (header : FrameHeader) (pl : List Nat) (f : Frame)
    (h : decode_frame header pl = Except.ok f) :
    f = { header := header, payload := pl } ∧ pl.length = header.length := by
  unfold decode_frame at h
  split at h
  · exact Except.noConfusion h
  · injection h with h
    rename_i hcond
    refine ⟨h.symm, ?_⟩
    omega

theorem recv_frame_payload_length {σ : Type} (T : Transport σ) (s : σ)
    (f : Frame) (s2 : σ) (h : recv_frame T s = Except.ok (f, s2)) :
    f.payload.length = f.header.length := by
  unfold recv_frame at h
  split at h <;> try exact Except.noConfusion h
  split at h <;> try exact Except.noConfusion h
  split at h <;> try exact Except.noConfusion h
  split at h <;> try exact Except.noConfusion h
  rename_i frame hdf
  injection h with h
  have hf : frame = f := congrArg Prod.fst h
  obtain ⟨hfr, hpl⟩ := decode_frame_ok _ _ _ hdf
  rw [← hf, hfr]
  exact hpl

/-- C8: under the Transport contract that a successful recv_exact n
returns exactly n bytes, every Frame returned by recv_frame satisfies
payload.length = header.length, and the length-mismatch branch of
decode_frame is unreachable from recv_frame -- whenever the flow reaches
the decode_frame call, that call succeeds. -/
theorem recv_frame_length_invariant {σ : Type} (T : Transport σ)
    (hT : ∀ s n bs s2, T.recv_exact s n = Except.ok (bs, s2) →
       bs.length = n) :
    (∀ s f s2, recv_frame T s = Except.ok (f, s2) →
       f.payload.length = f.header.length) ∧
    (∀ s1 hdrb t1 header pl t2,
       T.recv_exact s1 6 = Except.ok (hdrb, t1) →
       decode_frame_header hdrb = Except.ok header →
       T.recv_exact t1 header.length = Except.ok (pl, t2) →
       decode_frame header pl =
         Except.ok { header := header, payload := pl }) := by
  refine ⟨fun s f s2 h => recv_frame_payload_length T s f s2 h, ?_⟩
  intro s1 hdrb t1 header pl t2 _ _ h3
  have hlen := hT t1 header.length pl t2 h3
  simp [decode_frame, hlen]

theorem recv_frame_length_invariant_witness :
    decode_frame { kind := FrameKind.Ping, flags := 0, length := 2 } [5, 6] =
      Except.ok
        { header := { kind := FrameKind.Ping, flags := 0, length := 2 },
          payload := [5, 6] } :=
  (recv_frame_length_invariant loopback loopback_recv_exact_length).2
    [7, 0, 0, 0, 0, 2, 5, 6] [7, 0, 0, 0, 0, 2] [5, 6]
    { kind := FrameKind.Ping, flags := 0, length := 2 } [5, 6] []
    rfl rfl rfl

/-- C1: for every valid Frame -- header.length equal to the payload byte
count, fields within their machine-integer ranges -- sending the frame on
an empty loopback Transport and then receiving from the same Transport
returns Ok of a Frame equal to the one sent (and drains the queue). -/
theorem send_recv_roundtrip (f : Frame)
    (hvalid : f.header.length = f.payload.length)
    (h32 : f.header.length < 2 ^ 32)
    (hflags : f.header.flags < 2 ^ 8)
    (hbytes : ∀ b ∈ f.payload, b < 2 ^ 8) :
    Except.bind (send_frame loopback [] f)
        (fun r => recv_frame loopback r.2) = Except.ok (f, []) := by
  obtain ⟨⟨k, fl, len⟩, pl⟩ := f
  have hvalid2 : len = pl.length := hvalid
  show recv_frame loopback (encode_frame ⟨⟨k, fl, len⟩, pl⟩) =
    Except.ok (⟨⟨k, fl, len⟩, pl⟩, [])
  have hr1 : loopback.recv_exact
      (encode_frame_header ⟨k, fl, len⟩ ++ pl) 6 =
      Except.ok (encode_frame_header ⟨k, fl, len⟩, pl) := by
    have h6 : (encode_frame_header ⟨k, fl, len⟩).length = 6 := rfl
    have hle : 6 ≤ (encode_frame_header ⟨k, fl, len⟩ ++ pl).length := by
      simp [h6]
    simp only [loopback, if_pos hle]
    rw [List.take_left' h6, List.drop_left' h6]
  have hdh : decode_frame_header (encode_frame_header ⟨k, fl, len⟩) =
      Except.ok ⟨k, fl, len⟩ := decode_encode_frame_header _ h32
  have hr2 : loopback.recv_exact pl len = Except.ok (pl, []) := by
    simp only [loopback, hvalid2]
    rw [if_pos (Nat.le_refl pl.length)]
    rw [List.take_length, List.drop_length]
  have hdf : decode_frame ⟨k, fl, len⟩ pl =
      Except.ok ⟨⟨k, fl, len⟩, pl⟩ := by
    simp [decode_frame, hvalid2]
  simp only [encode_frame] at *
  simp only [recv_frame, hr1, hdh, hr2, hdf]

theorem send_recv_roundtrip_witness :
    Except.bind
        (send_frame loopback []
          { header := { kind := FrameKind.Hello, flags := 0, length := 2 },
            payload := [7, 8] })
        (fun r => recv_frame loopback r.2) =
      Except.ok
        ({ header := { kind := FrameKind.Hello, flags := 0, length := 2 },
           payload := [7, 8] }, []) :=
  send_recv_roundtrip
    { header := { kind := FrameKind.Hello, flags := 0, length := 2 },
      payload := [7, 8] }
    (by decide) (by decide) (by decide) (by decide)

/-- C7: a Transport pre-loaded with the 18 bytes of a Hello frame for
node 42, version 1.2, yields from recv_frame exactly that frame -- kind
Hello, flags 0, length 12, 12-byte payload -- and decode_hello maps the
payload to HelloPayload with node 42, major 1, minor 2. -/
theorem recv_frame_hello_example :
    recv_frame loopback
        [1, 0, 0, 0, 0, 12, 0, 0, 0, 0, 0, 0, 0, 42, 0, 1, 0, 2] =
      Except.ok
        ({ header := { kind := FrameKind.Hello, flags := 0, length := 12 },
           payload := [0, 0, 0, 0, 0, 0, 0, 42, 0, 1, 0, 2] }, []) ∧
    decode_hello [0, 0, 0, 0, 0, 0, 0, 42, 0, 1, 0, 2] =
      Except.ok { node := 42, version := { major := 1, minor := 2 } } :=
  ⟨rfl, rfl⟩

/-- C10: send_frame validates nothing -- for every Frame, consistent or
not, it issues exactly one transport send whose bytes are the encoded
header concatenated with the payload (6 + payload length bytes), and
returns the result of that send unchanged. -/
theorem send_frame_no_validation {σ : Type} (T : Transport σ) (t : σ)
    (f : Frame) :
    send_frame T t f =
      T.send t (encode_frame_header f.header ++ f.payload) ∧
    (encode_frame_header f.header ++ f.payload).length =
      6 + f.payload.length := by
  refine ⟨rfl, ?_⟩
  simp [encode_frame_header, encode_u32]
  omega

/-- C9: decode_hello succeeds on every input of 12 or more bytes and its
result depends only on the first 12 bytes -- trailing bytes are silently
ignored -- unlike decode_get_object, which rejects every length other
than exactly 8. -/
theorem decode_hello_ignores_trailing (b : List Nat)
    (h12 : 12 ≤ b.length) :
    decode_hello b = decode_hello (b.take 12) ∧
    (∃ p, decode_hello b = Except.ok p) ∧
    (∀ c : List Nat, c.length ≠ 8 →
       decode_get_object c = Except.error NetError.DecodeError) := by
  refine ⟨?_, ?_, ?_⟩
  · obtain _ | ⟨b0, b⟩ := b
    · simp at h12
    obtain _ | ⟨b1, b⟩ := b
    · simp at h12
    obtain _ | ⟨b2, b⟩ := b
    · simp at h12
    obtain _ | ⟨b3, b⟩ := b
    · simp at h12
    obtain _ | ⟨b4, b⟩ := b
    · simp at h12
    obtain _ | ⟨b5, b⟩ := b
    · simp at h12
    obtain _ | ⟨b6, b⟩ := b
    · simp at h12
    obtain _ | ⟨b7, b⟩ := b
    · simp at h12
    obtain _ | ⟨b8, b⟩ := b
    · simp at h12
    obtain _ | ⟨b9, b⟩ := b
    · simp at h12
    obtain _ | ⟨b10, b⟩ := b
    · simp at h12
    obtain _ | ⟨b11, b⟩ := b
    · simp at h12
    simp [decode_hello, decode_u64, decode_u16, List.take]
  · have hnot : ¬ b.length < 12 := by omega
    refine ⟨{ node := decode_u64 b,
              version := { major := decode_u16 (b.drop 8),
                           minor := decode_u16 (b.drop 10) } }, ?_⟩
    simp [decode_hello, hnot]
  · intro c hc
    simp [decode_get_object, hc]

theorem decode_hello_ignores_trailing_witness :
    decode_hello (List.replicate 13 0) =
      decode_hello ((List.replicate 13 0).take 12) ∧
    decode_get_object (List.replicate 9 1) =
      Except.error NetError.DecodeError :=
  ⟨(decode_hello_ignores_trailing (List.replicate 13 0) (by decide)).1,
   (decode_hello_ignores_trailing (List.replicate 13 0) (by decide)).2.2
     (List.replicate 9 1) (by decide)⟩

theorem send_frame_no_validation_witness :
    send_frame loopback []
        { header := { kind := FrameKind.Caps, flags := 0, length := 99 },
          payload := [1] } =
      loopback.send []
        (encode_frame_header
            { kind := FrameKind.Caps, flags := 0, length := 99 } ++ [1]) ∧
    (encode_frame_header
        { kind := FrameKind.Caps, flags := 0, length := 99 } ++ [1]).length =
      6 + ([1] : List Nat).length :=
  send_frame_no_validation loopback []
    { header := { kind := FrameKind.Caps, flags := 0, length := 99 },
      payload := [1] }

end QuarXNet
